import Mathlib

/-!
Shallow embedding of the generic job-execution framework of the
`adapter-pull-secret` repository (`pkg/job/job.go` and the metrics
collector file), together with theorems settling the frozen claims.

Modelling conventions:
  * A task's `Process(ctx)` call is denoted by its observable outcome:
    it returns nil, returns an error, or panics with a recovered value.
    Error messages and panic payloads are strings.
  * `uint32` counters are `Nat` reduced modulo `2 ^ 32` at each mutation,
    matching Go's wrap-around semantics and the `uint32(taskTotal)` cast.
  * The mutex-protected structures (`taskQueue`, `MetricsCollector`) are
    embedded as pure values; the mutex serialises every mutation in the
    source, so the sequential semantics is the one the lock enforces.
  * `workerPool.Run` spawns `Workers` goroutines that drain the queue and
    block until all exit.  With `Workers <= 0` the spawn loop runs zero
    times and `Run` returns at once, touching nothing.  With
    `Workers >= 1` every task is dequeued exactly once (the mutex makes
    `GetTask` atomic) and processed exactly once; the aggregate effect on
    the metrics, the set of processed tasks and the panic-handler calls
    is independent of the interleaving, so the pool is embedded by the
    canonical single-worker FIFO schedule.
  * Logging, trace contexts and ksuid task ids are elided: no claim
    depends on them.
-/

namespace JobFW

/-- Modulus of Go's `uint32`, the type of the three metric counters. -/
def U32 : Nat := 2 ^ 32

/-- Observable behaviour of one `Process(ctx)` call: normal return,
error return, or a panic carrying a recovered value. -/
inductive Outcome where
  | ok : Outcome
  | err : String → Outcome
  | panicked : String → Outcome
deriving DecidableEq

/-- A `Task` (job.go:137-140): a name and the denoted behaviour of its
`Process` method. -/
structure Task where
  name : String
  outcome : Outcome
deriving DecidableEq

/-- The `taskQueue` struct (job.go:143-146); the mutex is elided, every
operation below is the body it protects. -/
structure taskQueue where
  Tasks : List Task
deriving DecidableEq

/-- Go `taskQueue.Add` (job.go:151-153): append to the tail. -/
def taskQueue.Add (q : taskQueue) (t : Task) : taskQueue :=
  ⟨q.Tasks ++ [t]⟩

/-- Go `taskQueue.GetTask` (job.go:155-164): return nil on an empty queue,
otherwise remove and return the head. -/
def taskQueue.GetTask (q : taskQueue) : Option Task × taskQueue :=
  match q.Tasks with
  | [] => (none, q)
  | t :: rest => (some t, ⟨rest⟩)

/-- Go `newTaskQueue` (job.go:166-168). -/
def newTaskQueue : taskQueue := ⟨[]⟩

/-- Iterate `GetTask` `n` times, collecting the returned values in call
order together with the residual queue: the sequential trace of the
mutex-serialised dequeues performed by all workers together. -/
def getTaskN : Nat → taskQueue → List (Option Task) × taskQueue
  | 0, q => ([], q)
  | n + 1, q =>
    let r := q.GetTask
    let rs := getTaskN n r.2
    (r.1 :: rs.1, rs.2)

/-- The `MetricsCollector` struct (metrics file, lines 16-22); the mutex
is elided as above. -/
structure MetricsCollector where
  jobName : String
  taskTotal : Nat
  taskSuccess : Nat
  taskFailed : Nat
deriving DecidableEq

/-- Go `NewMetricsCollector` (metrics file): all counters start at zero. -/
def NewMetricsCollector (jobName : String) : MetricsCollector :=
  ⟨jobName, 0, 0, 0⟩

/-- Go `MetricsCollector.SetTaskTotal`; the `% U32` is the `uint32`
coercion applied to the argument at the call boundary. -/
def MetricsCollector.SetTaskTotal (m : MetricsCollector) (total : Nat) :
    MetricsCollector :=
  { m with taskTotal := total % U32 }

/-- Go `MetricsCollector.IncTaskSuccess`: `taskSuccess++` on a `uint32`. -/
def MetricsCollector.IncTaskSuccess (m : MetricsCollector) : MetricsCollector :=
  { m with taskSuccess := (m.taskSuccess + 1) % U32 }

/-- Go `MetricsCollector.IncTaskFailed`: `taskFailed++` on a `uint32`. -/
def MetricsCollector.IncTaskFailed (m : MetricsCollector) : MetricsCollector :=
  { m with taskFailed := (m.taskFailed + 1) % U32 }

/-- Go `MetricsCollector.Snapshot` (metrics file, lines 42-53): build and
return a fresh value holding copies of the four fields; the receiver is
only read. -/
def MetricsCollector.Snapshot (m : MetricsCollector) : MetricsCollector :=
  { jobName := m.jobName
    taskTotal := m.taskTotal
    taskSuccess := m.taskSuccess
    taskFailed := m.taskFailed }

/-- A mutation of the collector, for stating trace properties of
arbitrary sequences of increments performed by the workers. -/
inductive MOp where
  | incSuccess : MOp
  | incFailed : MOp
deriving DecidableEq

/-- Apply one mutation. -/
def applyMOp (m : MetricsCollector) : MOp → MetricsCollector
  | MOp.incSuccess => m.IncTaskSuccess
  | MOp.incFailed => m.IncTaskFailed

/-- Apply a sequence of mutations in order. -/
def applyMOps (m : MetricsCollector) (ops : List MOp) : MetricsCollector :=
  ops.foldl applyMOp m

/-- State threaded through the pool: the shared collector plus the
observable call traces (names of tasks whose `Process` ran, and the
recovered values passed to the injected panic handler, in order). -/
structure PoolState where
  metrics : MetricsCollector
  processed : List String
  panicCalls : List String
deriving DecidableEq

/-- One iteration body of a worker (job.go:194-219): run `Process` under
the deferred recover.  A panic increments the failure counter and, when
a handler is injected, forwards the recovered value to it; an error
return increments the failure counter; a nil return increments the
success counter. -/
def processTask (hasHandler : Bool) (s : PoolState) (t : Task) : PoolState :=
  let s := { s with processed := s.processed ++ [t.name] }
  match t.outcome with
  | Outcome.ok => { s with metrics := s.metrics.IncTaskSuccess }
  | Outcome.err _ => { s with metrics := s.metrics.IncTaskFailed }
  | Outcome.panicked v =>
    { s with metrics := s.metrics.IncTaskFailed
             panicCalls := s.panicCalls ++ (if hasHandler then [v] else []) }

/-- The worker loop (job.go:187-220): dequeue until `GetTask` returns
nil, processing each dequeued task; the canonical FIFO schedule of the
pool's drain. -/
def workerLoop (hasHandler : Bool) : List Task → PoolState → PoolState
  | [], s => s
  | t :: rest, s => workerLoop hasHandler rest (processTask hasHandler s t)

/-- The `workerPool` struct (job.go:171-176); the handler field is kept
as its nil-ness, which is all the control flow inspects. -/
structure workerPool where
  Queue : taskQueue
  Workers : Int
  hasPanicHandler : Bool
  MetricsCollector : MetricsCollector

/-- Go `workerPool.Run` (job.go:179-225): spawn `Workers` workers and wait.
With `Workers <= 0` the spawn loop runs zero times, so `Run` returns
immediately: nothing is dequeued, no counter moves, no handler is
called.  Otherwise the workers drain the queue completely; the result is
the pool state after the drain together with the residual (empty)
queue. -/
def workerPool.Run (wp : workerPool) : PoolState × taskQueue :=
  if wp.Workers ≤ 0 then
    (⟨wp.MetricsCollector, [], []⟩, wp.Queue)
  else
    (workerLoop wp.hasPanicHandler wp.Queue.Tasks ⟨wp.MetricsCollector, [], []⟩, ⟨[]⟩)

/-- A `Job` (job.go:26-31), denoted by what the framework consumes:
its metadata `Use` string, the result of `GetTasks()` and the result of
`GetWorkerCount()`.  (`AddFlags` and `Description` play no role in any
claim.) -/
structure Job where
  use : String
  tasks : Except String (List Task)
  workerCount : Int

/-- Go `validateJob` (job.go:114-119). -/
def validateJob (job : Job) : Option String :=
  if job.workerCount < 1 then some "number of workers must be greater than zero"
  else none

/-- The `jobRunner` configuration (job.go:235-240).  `BeforeJob` is
`none` when the hook is absent and `some r` when present with result
`r` (`none` = nil error); `hasAfterJob` and `hasPanicHandler` record
nil-ness of the other hooks.  The reporter is always non-nil on the
paths that reach `Run` (Build substitutes a stdout reporter), so only
the fact that `Report` is invoked is recorded. -/
structure jobRunner where
  BeforeJob : Option (Option String)
  hasAfterJob : Bool
  hasPanicHandler : Bool

/-- Observable result of one `Run`: the returned error (as
`Option String`), which collaborators were invoked, the trace of
`Process` calls and panic-handler calls, and the final collector (absent
when the run aborted before creating one). -/
structure RunResult where
  result : Option String
  getTasksCalled : Bool
  poolStarted : Bool
  processed : List String
  panicCalls : List String
  afterJobCalled : Bool
  reportCalled : Bool
  finalMetrics : Option MetricsCollector
deriving DecidableEq

/-- Result of a run aborted before the queue is populated: only the
error is returned, nothing downstream runs. -/
def abortedRun (e : String) (gtc : Bool) : RunResult :=
  { result := some e
    getTasksCalled := gtc
    poolStarted := false
    processed := []
    panicCalls := []
    afterJobCalled := false
    reportCalled := false
    finalMetrics := none }

/-- Go `jobRunner.Run` (job.go:246-318): before-hook, populate queue via
`GetTasks` and repeated `Add`, set `taskTotal` through the `uint32`
cast, run the pool, after-hook, one metrics report, then outcome
determination (`taskTotal == 0` → nil; all failed → "all tasks failed";
otherwise nil).  The top-level recover (job.go:251-264) re-raises and
none of the embedded operations panic, so it is not modelled. -/
def jobRunner.Run (jr : jobRunner) (job : Job) (workerCount : Int) : RunResult :=
  match jr.BeforeJob with
  | some (some e) => abortedRun e false
  | _ =>
    match job.tasks with
    | Except.error e => abortedRun e true
    | Except.ok tasks =>
      let taskTotal := tasks.length
      let queue := tasks.foldl taskQueue.Add newTaskQueue
      let mc := (NewMetricsCollector job.use).SetTaskTotal taskTotal
      let pool : workerPool :=
        { Queue := queue
          Workers := workerCount
          hasPanicHandler := jr.hasPanicHandler
          MetricsCollector := mc }
      let ps := (pool.Run).1
      let res :=
        if ps.metrics.taskTotal = 0 then none
        else if ps.metrics.taskFailed = ps.metrics.taskTotal then
          some "all tasks failed"
        else none
      { result := res
        getTasksCalled := true
        poolStarted := true
        processed := ps.processed
        panicCalls := ps.panicCalls
        afterJobCalled := jr.hasAfterJob
        reportCalled := true
        finalMetrics := some ps.metrics }

/-- Go `TestRunner.Run` (job.go:323-347): populate queue, set total, run
the pool with a nil panic handler, then return the "all tasks failed"
error exactly when `taskFailed == taskTotal` — note the absence of the
`taskTotal == 0` early nil return of `jobRunner.Run`.  No hooks, no
report. -/
def TestRunner.Run (job : Job) (workerCount : Int) : RunResult :=
  match job.tasks with
  | Except.error e => abortedRun e true
  | Except.ok tasks =>
    let taskTotal := tasks.length
    let queue := tasks.foldl taskQueue.Add newTaskQueue
    let mc := (NewMetricsCollector job.use).SetTaskTotal taskTotal
    let pool : workerPool :=
      { Queue := queue
        Workers := workerCount
        hasPanicHandler := false
        MetricsCollector := mc }
    let ps := (pool.Run).1
    let res :=
      if ps.metrics.taskFailed = ps.metrics.taskTotal then
        some "all tasks failed"
      else none
    { result := res
      getTasksCalled := true
      poolStarted := true
      processed := ps.processed
      panicCalls := ps.panicCalls
      afterJobCalled := false
      reportCalled := false
      finalMetrics := some ps.metrics }

/-- The `RunE` closure built for a job by `CommandBuilder.Build`
(job.go:92-106): validate the worker count first, and only on success
hand over to `jobRunner.Run` with the job's own worker count. -/
def commandRunE (jr : jobRunner) (job : Job) : RunResult :=
  match validateJob job with
  | some e => abortedRun e false
  | none => jobRunner.Run jr job job.workerCount

/-! Helper functions and lemmas about the embedded operations. -/

/-- Number of tasks in a list whose `Process` returns nil. -/
def countOk : List Task → Nat
  | [] => 0
  | t :: rest => (match t.outcome with | Outcome.ok => 1 | _ => 0) + countOk rest

/-- Number of tasks in a list whose `Process` returns an error or
panics: the tasks the pool records as failed. -/
def countFail : List Task → Nat
  | [] => 0
  | t :: rest => (match t.outcome with | Outcome.ok => 0 | _ => 1) + countFail rest

/-- Recovered values of the panicking tasks of a list, in queue order. -/
def panicVals : List Task → List String
  | [] => []
  | t :: rest =>
    (match t.outcome with | Outcome.panicked v => [v] | _ => []) ++ panicVals rest

theorem countOk_add_countFail (ts : List Task) :
    countOk ts + countFail ts = ts.length := by
  induction ts with
  | nil => rfl
  | cons t rest ih =>
    cases ht : t.outcome <;> simp [countOk, countFail, ht] <;> omega

theorem foldl_add_tasks (ts : List Task) (q : taskQueue) :
    List.foldl taskQueue.Add q ts = ⟨q.Tasks ++ ts⟩ := by
  induction ts generalizing q with
  | nil => simp
  | cons t rest ih => simp [List.foldl_cons, taskQueue.Add, ih]

theorem getTaskN_eq (n : Nat) :
    ∀ ts : List Task,
      getTaskN n ⟨ts⟩ =
        ((ts.take n).map some ++ List.replicate (n - ts.length) none,
          ⟨ts.drop n⟩) := by
  induction n with
  | zero => intro ts; simp [getTaskN]
  | succ n ih =>
    intro ts
    cases ts with
    | nil => simp [getTaskN, taskQueue.GetTask, ih, List.replicate_succ]
    | cons t rest => simp [getTaskN, taskQueue.GetTask, ih]

/-- The worker loop never touches `taskTotal` or `jobName`. -/
theorem workerLoop_total (h : Bool) :
    ∀ (ts : List Task) (s : PoolState),
      (workerLoop h ts s).metrics.taskTotal = s.metrics.taskTotal ∧
      (workerLoop h ts s).metrics.jobName = s.metrics.jobName := by
  intro ts
  induction ts with
  | nil => intro s; exact ⟨rfl, rfl⟩
  | cons t rest ih =>
    intro s
    have := ih (processTask h s t)
    cases ht : t.outcome <;>
      simpa [workerLoop, processTask, ht, MetricsCollector.IncTaskSuccess,
        MetricsCollector.IncTaskFailed] using this

/-- The metric counters computed by the drain do not depend on the
panic-handler flag or on the trace fields of the state. -/
theorem workerLoop_metrics_congr (h h' : Bool) :
    ∀ (ts : List Task) (m : MetricsCollector) (p p' pc pc' : List String),
      (workerLoop h ts ⟨m, p, pc⟩).metrics =
        (workerLoop h' ts ⟨m, p', pc'⟩).metrics := by
  intro ts
  induction ts with
  | nil => intro m p p' pc pc'; rfl
  | cons t rest ih =>
    intro m p p' pc pc'
    cases ht : t.outcome <;> simp [workerLoop, processTask, ht] <;> apply ih

/-- Full characterisation of the drain when the counters cannot wrap:
counters accumulate the success/failure counts, every task name is
appended to the processed trace in order, and the handler receives
exactly the recovered panic values (when non-nil). -/
theorem workerLoop_spec (h : Bool) :
    ∀ (ts : List Task) (s : PoolState),
      s.metrics.taskSuccess + countOk ts < U32 →
      s.metrics.taskFailed + countFail ts < U32 →
      (workerLoop h ts s).metrics.taskSuccess
          = s.metrics.taskSuccess + countOk ts ∧
      (workerLoop h ts s).metrics.taskFailed
          = s.metrics.taskFailed + countFail ts ∧
      (workerLoop h ts s).processed = s.processed ++ ts.map Task.name ∧
      (workerLoop h ts s).panicCalls
          = s.panicCalls ++ (if h then panicVals ts else []) := by
  intro ts
  induction ts with
  | nil => intro s hs hf; simp [workerLoop, countOk, countFail, panicVals]
  | cons t rest ih =>
    intro s hs hf
    cases ht : t.outcome with
    | ok =>
      have hs1 : s.metrics.taskSuccess + 1 < U32 := by
        have : 1 ≤ countOk (t :: rest) := by simp [countOk, ht]
        omega
      have hmod : (s.metrics.taskSuccess + 1) % U32 = s.metrics.taskSuccess + 1 :=
        Nat.mod_eq_of_lt hs1
      have h1 := ih (processTask h s t)
        (by simp [processTask, ht, MetricsCollector.IncTaskSuccess, hmod]
            simp [countOk, ht] at hs; omega)
        (by simp [processTask, ht, MetricsCollector.IncTaskSuccess]
            simp [countFail, ht] at hf; omega)
      simp [processTask, ht, MetricsCollector.IncTaskSuccess, hmod] at h1
      simp [workerLoop, processTask, ht, MetricsCollector.IncTaskSuccess, hmod]
      refine ⟨?_, ?_, ?_, ?_⟩
      · rw [h1.1]; simp [countOk, ht]; omega
      · rw [h1.2.1]; simp [countFail, ht]
      · rw [h1.2.2.1]
      · rw [h1.2.2.2]; simp [panicVals, ht]
    | err e =>
      have hf1 : s.metrics.taskFailed + 1 < U32 := by
        have : 1 ≤ countFail (t :: rest) := by simp [countFail, ht]
        omega
      have hmod : (s.metrics.taskFailed + 1) % U32 = s.metrics.taskFailed + 1 :=
        Nat.mod_eq_of_lt hf1
      have h1 := ih (processTask h s t)
        (by simp [processTask, ht, MetricsCollector.IncTaskFailed]
            simp [countOk, ht] at hs; omega)
        (by simp [processTask, ht, MetricsCollector.IncTaskFailed, hmod]
            simp [countFail, ht] at hf; omega)
      simp [processTask, ht, MetricsCollector.IncTaskFailed, hmod] at h1
      simp [workerLoop, processTask, ht, MetricsCollector.IncTaskFailed, hmod]
      refine ⟨?_, ?_, ?_, ?_⟩
      · rw [h1.1]; simp [countOk, ht]
      · rw [h1.2.1]; simp [countFail, ht]; omega
      · rw [h1.2.2.1]
      · rw [h1.2.2.2]; simp [panicVals, ht]
    | panicked v =>
      have hf1 : s.metrics.taskFailed + 1 < U32 := by
        have : 1 ≤ countFail (t :: rest) := by simp [countFail, ht]
        omega
      have hmod : (s.metrics.taskFailed + 1) % U32 = s.metrics.taskFailed + 1 :=
        Nat.mod_eq_of_lt hf1
      have h1 := ih (processTask h s t)
        (by simp [processTask, ht, MetricsCollector.IncTaskFailed]
            simp [countOk, ht] at hs; omega)
        (by simp [processTask, ht, MetricsCollector.IncTaskFailed, hmod]
            simp [countFail, ht] at hf; omega)
      simp [processTask, ht, MetricsCollector.IncTaskFailed, hmod] at h1
      simp [workerLoop, processTask, ht, MetricsCollector.IncTaskFailed, hmod]
      refine ⟨?_, ?_, ?_, ?_⟩
      · rw [h1.1]; simp [countOk, ht]
      · rw [h1.2.1]; simp [countFail, ht]; omega
      · rw [h1.2.2.1]
      · rw [h1.2.2.2]
        cases h <;> simp [panicVals, ht]

/-- Final collector produced by running a pool of `w` workers with
handler flag `h` over the queue holding `ts`, starting from a fresh
collector for `use` whose total is `ts.length` (through the `uint32`
cast) — the collector both runners hand to outcome determination. -/
def poolMetrics (use : String) (ts : List Task) (w : Int) (h : Bool) :
    MetricsCollector :=
  ((workerPool.Run
      ⟨⟨ts⟩, w, h, (NewMetricsCollector use).SetTaskTotal ts.length⟩).1).metrics

theorem workerPool_run_pos (wp : workerPool) (hw : 0 < wp.Workers) :
    wp.Run = (workerLoop wp.hasPanicHandler wp.Queue.Tasks
      ⟨wp.MetricsCollector, [], []⟩, ⟨[]⟩) := by
  rw [workerPool.Run, if_neg (by omega)]

theorem testRunner_run_ok (job : Job) (w : Int) (ts : List Task)
    (ht : job.tasks = Except.ok ts) :
    (TestRunner.Run job w).result =
      if (poolMetrics job.use ts w false).taskFailed =
          (poolMetrics job.use ts w false).taskTotal
      then some "all tasks failed" else none := by
  simp [TestRunner.Run, ht, poolMetrics, foldl_add_tasks, newTaskQueue]

theorem jobRunner_run_ok (jr : jobRunner) (job : Job) (w : Int) (ts : List Task)
    (hb : jr.BeforeJob = none ∨ jr.BeforeJob = some none)
    (ht : job.tasks = Except.ok ts) :
    (jr.Run job w).result =
      (if (poolMetrics job.use ts w jr.hasPanicHandler).taskTotal = 0 then none
       else if (poolMetrics job.use ts w jr.hasPanicHandler).taskFailed =
          (poolMetrics job.use ts w jr.hasPanicHandler).taskTotal
       then some "all tasks failed" else none) := by
  rcases hb with hb | hb <;>
    simp [jobRunner.Run, hb, ht, poolMetrics, foldl_add_tasks, newTaskQueue]

theorem jobRunner_finalMetrics_ok (jr : jobRunner) (job : Job) (w : Int)
    (ts : List Task)
    (hb : jr.BeforeJob = none ∨ jr.BeforeJob = some none)
    (ht : job.tasks = Except.ok ts) :
    (jr.Run job w).finalMetrics =
      some (poolMetrics job.use ts w jr.hasPanicHandler) := by
  rcases hb with hb | hb <;>
    simp [jobRunner.Run, hb, ht, poolMetrics, foldl_add_tasks, newTaskQueue]

theorem poolMetrics_handler_indep (use : String) (ts : List Task) (w : Int)
    (h h' : Bool) :
    poolMetrics use ts w h = poolMetrics use ts w h' := by
  unfold poolMetrics workerPool.Run
  by_cases hw : w ≤ 0
  · simp [hw]
  · simp [hw]
    exact workerLoop_metrics_congr h h' ts _ [] [] [] []

theorem poolMetrics_total (use : String) (ts : List Task) (w : Int) (h : Bool) :
    (poolMetrics use ts w h).taskTotal = ts.length % U32 := by
  unfold poolMetrics workerPool.Run
  by_cases hw : w ≤ 0
  · simp [hw, NewMetricsCollector, MetricsCollector.SetTaskTotal]
  · simp [hw]
    rw [(workerLoop_total h ts _).1]
    simp [NewMetricsCollector, MetricsCollector.SetTaskTotal]

/-- Any sequence of increments raises the two counters by at most its
length in total (wrap-around can only lower a counter) and never
touches `taskTotal`. -/
theorem applyMOps_sum_le (ops : List MOp) :
    ∀ m : MetricsCollector,
      (applyMOps m ops).taskSuccess + (applyMOps m ops).taskFailed
          ≤ m.taskSuccess + m.taskFailed + ops.length ∧
      (applyMOps m ops).taskTotal = m.taskTotal := by
  induction ops with
  | nil => intro m; simp [applyMOps]
  | cons op rest ih =>
    intro m
    have h := ih (applyMOp m op)
    have hstep : applyMOps m (op :: rest) = applyMOps (applyMOp m op) rest := by
      simp [applyMOps]
    rw [hstep]
    cases op with
    | incSuccess =>
      have hle : (m.taskSuccess + 1) % U32 ≤ m.taskSuccess + 1 :=
        Nat.mod_le _ _
      have hS : (applyMOp m MOp.incSuccess).taskSuccess =
          (m.taskSuccess + 1) % U32 := rfl
      have hF : (applyMOp m MOp.incSuccess).taskFailed = m.taskFailed := rfl
      have hT : (applyMOp m MOp.incSuccess).taskTotal = m.taskTotal := rfl
      rw [hS, hF, hT] at h
      refine ⟨?_, h.2⟩
      have h1 := h.1
      simp only [List.length_cons]
      omega
    | incFailed =>
      have hle : (m.taskFailed + 1) % U32 ≤ m.taskFailed + 1 :=
        Nat.mod_le _ _
      have hS : (applyMOp m MOp.incFailed).taskSuccess = m.taskSuccess := rfl
      have hF : (applyMOp m MOp.incFailed).taskFailed =
          (m.taskFailed + 1) % U32 := rfl
      have hT : (applyMOp m MOp.incFailed).taskTotal = m.taskTotal := rfl
      rw [hS, hF, hT] at h
      refine ⟨?_, h.2⟩
      have h1 := h.1
      simp only [List.length_cons]
      omega

/-! Theorems settling the frozen claims. -/

/-- C4: a queue built by `Add`'ing `ts` in order holds exactly `ts`;
iterating `GetTask` `n` times returns the first `min n T` tasks, one
per successful call, in insertion order, then the empty sentinel on
every further call, and leaves exactly the not-yet-delivered suffix in
the queue — so across all callers exactly `T` calls return a task, each
added task is delivered by exactly one call, and no dequeued task ever
re-enters the queue. -/
theorem queue_fifo_exact_delivery (ts : List Task) (n : Nat) :
    (List.foldl taskQueue.Add newTaskQueue ts).Tasks = ts ∧
    getTaskN n (List.foldl taskQueue.Add newTaskQueue ts) =
      ((ts.take n).map some ++ List.replicate (n - ts.length) none,
        ⟨ts.drop n⟩) := by
  have hq : List.foldl taskQueue.Add newTaskQueue ts = ⟨ts⟩ := by
    simpa [newTaskQueue] using foldl_add_tasks ts newTaskQueue
  rw [hq]
  exact ⟨rfl, getTaskN_eq n ts⟩

/-- C9: `Snapshot` returns a copy whose four fields coincide with the
collector's current values; the embedding of `Snapshot` is a pure
function of the receiver (the source only reads the receiver under the
lock), so the receiver is unchanged, and because the result is a fresh
value, any sequence of subsequent mutations applied to the copy acts
exactly as it would on the original, with neither object affecting the
other. -/
theorem snapshot_detached_copy (m : MetricsCollector) :
    m.Snapshot.jobName = m.jobName ∧
    m.Snapshot.taskTotal = m.taskTotal ∧
    m.Snapshot.taskSuccess = m.taskSuccess ∧
    m.Snapshot.taskFailed = m.taskFailed ∧
    ∀ ops : List MOp, applyMOps m.Snapshot ops = applyMOps m ops :=
  ⟨rfl, rfl, rfl, rfl, fun _ => rfl⟩

/-- C5: when the `BeforeJob` hook is present and returns an error, the
run returns exactly that error and nothing downstream happens: no
`GetTasks`, no task `Process`, no `AfterJob`, no metrics report. -/
theorem before_hook_error_aborts (jr : jobRunner) (job : Job) (w : Int)
    (e : String) (hb : jr.BeforeJob = some (some e)) :
    (jr.Run job w).result = some e ∧
    (jr.Run job w).getTasksCalled = false ∧
    (jr.Run job w).processed = [] ∧
    (jr.Run job w).afterJobCalled = false ∧
    (jr.Run job w).reportCalled = false := by
  simp [jobRunner.Run, hb, abortedRun]

theorem before_hook_error_aborts_witness :
    (jobRunner.Run ⟨some (some "boom"), true, true⟩
        ⟨"j", Except.ok [], 1⟩ 1).result = some "boom" ∧
    (jobRunner.Run ⟨some (some "boom"), true, true⟩
        ⟨"j", Except.ok [], 1⟩ 1).getTasksCalled = false ∧
    (jobRunner.Run ⟨some (some "boom"), true, true⟩
        ⟨"j", Except.ok [], 1⟩ 1).processed = [] ∧
    (jobRunner.Run ⟨some (some "boom"), true, true⟩
        ⟨"j", Except.ok [], 1⟩ 1).afterJobCalled = false ∧
    (jobRunner.Run ⟨some (some "boom"), true, true⟩
        ⟨"j", Except.ok [], 1⟩ 1).reportCalled = false :=
  before_hook_error_aborts ⟨some (some "boom"), true, true⟩
    ⟨"j", Except.ok [], 1⟩ 1 "boom" rfl

/-- C6: when `GetTasks` returns an error (on a run whose before-hook
passed or is absent), the run returns exactly that error, no task runs,
the pool is never started, and neither the after-hook nor the metrics
report happens. -/
theorem get_tasks_error_aborts (jr : jobRunner) (job : Job) (w : Int)
    (e : String) (hb : jr.BeforeJob = none ∨ jr.BeforeJob = some none)
    (ht : job.tasks = Except.error e) :
    (jr.Run job w).result = some e ∧
    (jr.Run job w).getTasksCalled = true ∧
    (jr.Run job w).poolStarted = false ∧
    (jr.Run job w).processed = [] ∧
    (jr.Run job w).afterJobCalled = false ∧
    (jr.Run job w).reportCalled = false := by
  rcases hb with hb | hb <;> simp [jobRunner.Run, hb, ht, abortedRun]

theorem get_tasks_error_aborts_witness :
    (jobRunner.Run ⟨none, true, true⟩
        ⟨"j", Except.error "no tasks", 2⟩ 2).result = some "no tasks" ∧
    (jobRunner.Run ⟨none, true, true⟩
        ⟨"j", Except.error "no tasks", 2⟩ 2).getTasksCalled = true ∧
    (jobRunner.Run ⟨none, true, true⟩
        ⟨"j", Except.error "no tasks", 2⟩ 2).poolStarted = false ∧
    (jobRunner.Run ⟨none, true, true⟩
        ⟨"j", Except.error "no tasks", 2⟩ 2).processed = [] ∧
    (jobRunner.Run ⟨none, true, true⟩
        ⟨"j", Except.error "no tasks", 2⟩ 2).afterJobCalled = false ∧
    (jobRunner.Run ⟨none, true, true⟩
        ⟨"j", Except.error "no tasks", 2⟩ 2).reportCalled = false :=
  get_tasks_error_aborts ⟨none, true, true⟩
    ⟨"j", Except.error "no tasks", 2⟩ 2 "no tasks" (Or.inl rfl) rfl

/-- C7: the command built for a job first runs `validateJob`: with a
non-positive worker count it fails with the configuration error before
`GetTasks` is invoked and before any task runs, and with a worker count
of at least one the validation passes. -/
theorem worker_count_validation (jr : jobRunner) (job : Job) :
    (job.workerCount < 1 →
      (commandRunE jr job).result =
          some "number of workers must be greater than zero" ∧
      (commandRunE jr job).getTasksCalled = false ∧
      (commandRunE jr job).processed = [] ∧
      (commandRunE jr job).poolStarted = false) ∧
    (1 ≤ job.workerCount → validateJob job = none) := by
  constructor
  · intro hw
    simp [commandRunE, validateJob, hw, abortedRun]
  · intro hw
    rw [validateJob, if_neg (by omega)]

theorem worker_count_validation_witness :
    ((commandRunE ⟨none, false, false⟩
        ⟨"j", Except.ok [⟨"t", Outcome.ok⟩], 0⟩).result =
          some "number of workers must be greater than zero" ∧
      (commandRunE ⟨none, false, false⟩
        ⟨"j", Except.ok [⟨"t", Outcome.ok⟩], 0⟩).getTasksCalled = false ∧
      (commandRunE ⟨none, false, false⟩
        ⟨"j", Except.ok [⟨"t", Outcome.ok⟩], 0⟩).processed = [] ∧
      (commandRunE ⟨none, false, false⟩
        ⟨"j", Except.ok [⟨"t", Outcome.ok⟩], 0⟩).poolStarted = false) ∧
    validateJob ⟨"j", Except.ok [⟨"t", Outcome.ok⟩], 3⟩ = none :=
  ⟨(worker_count_validation ⟨none, false, false⟩
      ⟨"j", Except.ok [⟨"t", Outcome.ok⟩], 0⟩).1 (by decide),
    (worker_count_validation ⟨none, false, false⟩
      ⟨"j", Except.ok [⟨"t", Outcome.ok⟩], 3⟩).2 (by decide)⟩

/-- C2: on every run that reaches outcome determination (before-hook
passed or absent, `GetTasks` succeeded, so a final collector exists),
the returned value is nil when `task_total == 0`, the error
"all tasks failed" when `task_total > 0` and `task_failed == task_total`,
and nil in every other case — partial failure never becomes a run-level
error. -/
theorem runner_outcome_determination (jr : jobRunner) (job : Job) (w : Int)
    (ts : List Task) (mc : MetricsCollector)
    (hb : jr.BeforeJob = none ∨ jr.BeforeJob = some none)
    (ht : job.tasks = Except.ok ts)
    (hm : (jr.Run job w).finalMetrics = some mc) :
    (mc.taskTotal = 0 → (jr.Run job w).result = none) ∧
    (0 < mc.taskTotal → mc.taskFailed = mc.taskTotal →
        (jr.Run job w).result = some "all tasks failed") ∧
    (0 < mc.taskTotal → mc.taskFailed ≠ mc.taskTotal →
        (jr.Run job w).result = none) := by
  rw [jobRunner_finalMetrics_ok jr job w ts hb ht] at hm
  obtain rfl : poolMetrics job.use ts w jr.hasPanicHandler = mc :=
    Option.some.inj hm
  rw [jobRunner_run_ok jr job w ts hb ht]
  refine ⟨fun h0 => ?_, fun hpos heq => ?_, fun hpos hne => ?_⟩
  · rw [if_pos h0]
  · rw [if_neg (by omega), if_pos heq]
  · rw [if_neg (by omega), if_neg hne]

theorem runner_outcome_determination_witness :
    (jobRunner.Run ⟨none, false, false⟩
        ⟨"j", Except.ok [⟨"a", Outcome.err "x"⟩, ⟨"b", Outcome.ok⟩], 1⟩
        1).result = none :=
  (runner_outcome_determination ⟨none, false, false⟩
      ⟨"j", Except.ok [⟨"a", Outcome.err "x"⟩, ⟨"b", Outcome.ok⟩], 1⟩ 1
      [⟨"a", Outcome.err "x"⟩, ⟨"b", Outcome.ok⟩] ⟨"j", 2, 1, 1⟩
      (Or.inl rfl) rfl (by decide)).2.2 (by decide) (by decide)

/-- C8 (counterexample): on a job producing an empty task list the two
runners disagree — `TestRunner.Run` (which lacks the `taskTotal == 0`
early return) yields the "all tasks failed" error while `jobRunner.Run`
yields nil. -/
theorem test_runner_empty_queue_counterexample :
    (TestRunner.Run ⟨"j", Except.ok [], 1⟩ 1).result =
        some "all tasks failed" ∧
    (jobRunner.Run ⟨none, false, false⟩ ⟨"j", Except.ok [], 1⟩ 1).result =
        none := by
  constructor <;> decide

/-- C8 (amended): `TestRunner.Run` reproduces the main runner's
populate-queue → run-pool → determine-outcome behaviour except on an
empty task list: it returns the `GetTasks` error when task production
fails, and agrees with `jobRunner.Run` whenever the produced task list
is non-empty (with fewer than `2^32` tasks); on the empty list it
returns the "all tasks failed" error while the main runner returns
nil. -/
theorem test_runner_agrees_nonempty (jr : jobRunner) (job : Job) (w : Int)
    (ts : List Task)
    (hb : jr.BeforeJob = none ∨ jr.BeforeJob = some none) :
    (∀ e, job.tasks = Except.error e →
      (TestRunner.Run job w).result = some e ∧
      (jr.Run job w).result = some e) ∧
    (job.tasks = Except.ok ts → ts ≠ [] → ts.length < U32 →
      (TestRunner.Run job w).result = (jr.Run job w).result) ∧
    (job.tasks = Except.ok [] →
      (TestRunner.Run job w).result = some "all tasks failed" ∧
      (jr.Run job w).result = none) := by
  refine ⟨fun e he => ?_, fun ht hne hlt => ?_, fun ht => ?_⟩
  · constructor
    · simp [TestRunner.Run, he, abortedRun]
    · rcases hb with hb | hb <;> simp [jobRunner.Run, hb, he, abortedRun]
  · rw [testRunner_run_ok job w ts ht, jobRunner_run_ok jr job w ts hb ht,
      poolMetrics_handler_indep job.use ts w false jr.hasPanicHandler]
    have htot : (poolMetrics job.use ts w jr.hasPanicHandler).taskTotal =
        ts.length := by
      rw [poolMetrics_total, Nat.mod_eq_of_lt hlt]
    have hpos : ts.length ≠ 0 := by
      intro h0; exact hne (List.eq_nil_of_length_eq_zero h0)
    have h0 : ¬ ((poolMetrics job.use ts w jr.hasPanicHandler).taskTotal = 0) := by
      rw [htot]; exact hpos
    rw [if_neg h0]
  · constructor
    · rw [testRunner_run_ok job w [] ht]
      have htot : (poolMetrics job.use [] w false).taskTotal = 0 := by
        rw [poolMetrics_total]; rfl
      have hfail : (poolMetrics job.use [] w false).taskFailed = 0 := by
        unfold poolMetrics workerPool.Run
        by_cases hw : w ≤ 0 <;>
          simp [hw, workerLoop, NewMetricsCollector, MetricsCollector.SetTaskTotal]
      rw [if_pos (by rw [htot, hfail])]
    · rw [jobRunner_run_ok jr job w [] hb ht]
      have htot : (poolMetrics job.use [] w jr.hasPanicHandler).taskTotal = 0 := by
        rw [poolMetrics_total]; rfl
      rw [if_pos htot]

theorem test_runner_agrees_nonempty_witness :
    (TestRunner.Run ⟨"j", Except.ok [⟨"a", Outcome.ok⟩], 1⟩ 1).result =
      (jobRunner.Run ⟨none, false, false⟩
        ⟨"j", Except.ok [⟨"a", Outcome.ok⟩], 1⟩ 1).result :=
  (test_runner_agrees_nonempty ⟨none, false, false⟩
      ⟨"j", Except.ok [⟨"a", Outcome.ok⟩], 1⟩ 1 [⟨"a", Outcome.ok⟩]
      (Or.inl rfl)).2.1 rfl (by decide) (by norm_num [U32])

/-- C3: after `SetTaskTotal T` on a fresh collector, any sequence of at
most `T` increments keeps `task_success + task_failed ≤ task_total`
(instantiating the sequence at every prefix gives the invariant after
every operation); and once `workerPool.Run` finishes draining a queue of
`T` tasks with at least one worker — each task contributing exactly one
increment to exactly one counter — the sum equals `task_total`, which
equals `T`. -/
theorem metrics_invariant (name : String) (T : Nat) (ops : List MOp)
    (q : List Task) (W : Int) (h : Bool)
    (hT : T < U32) (hops : ops.length ≤ T)
    (hq : q.length = T) (hW : 0 < W) :
    ((applyMOps ((NewMetricsCollector name).SetTaskTotal T) ops).taskSuccess +
        (applyMOps ((NewMetricsCollector name).SetTaskTotal T) ops).taskFailed
        ≤ (applyMOps ((NewMetricsCollector name).SetTaskTotal T) ops).taskTotal) ∧
    ((poolMetrics name q W h).taskSuccess + (poolMetrics name q W h).taskFailed
        = (poolMetrics name q W h).taskTotal ∧
      (poolMetrics name q W h).taskTotal = T) := by
  have hmodT : T % U32 = T := Nat.mod_eq_of_lt hT
  constructor
  · have hsum := applyMOps_sum_le ops ((NewMetricsCollector name).SetTaskTotal T)
    have htotv : ((NewMetricsCollector name).SetTaskTotal T).taskTotal = T := hmodT
    have hS : ((NewMetricsCollector name).SetTaskTotal T).taskSuccess = 0 := rfl
    have hF : ((NewMetricsCollector name).SetTaskTotal T).taskFailed = 0 := rfl
    rw [hsum.2, htotv]
    have h1 := hsum.1
    rw [hS, hF] at h1
    omega
  · have hcount := countOk_add_countFail q
    have hs0S : (⟨(NewMetricsCollector name).SetTaskTotal q.length, [], []⟩ :
        PoolState).metrics.taskSuccess = 0 := rfl
    have hs0F : (⟨(NewMetricsCollector name).SetTaskTotal q.length, [], []⟩ :
        PoolState).metrics.taskFailed = 0 := rfl
    have hspec := workerLoop_spec h q
        ⟨(NewMetricsCollector name).SetTaskTotal q.length, [], []⟩
        (by rw [hs0S]; omega) (by rw [hs0F]; omega)
    have htotal : (poolMetrics name q W h).taskTotal = T := by
      rw [poolMetrics_total, hq, hmodT]
    refine ⟨?_, htotal⟩
    rw [htotal]
    have hrun : poolMetrics name q W h =
        (workerLoop h q
          ⟨(NewMetricsCollector name).SetTaskTotal q.length, [], []⟩).metrics := by
      unfold poolMetrics
      rw [workerPool_run_pos _ hW]
    rw [hrun, hspec.1, hspec.2.1, hs0S, hs0F]
    omega

theorem metrics_invariant_witness :
    ((applyMOps ((NewMetricsCollector "j").SetTaskTotal 2)
        [MOp.incSuccess]).taskSuccess +
      (applyMOps ((NewMetricsCollector "j").SetTaskTotal 2)
        [MOp.incSuccess]).taskFailed
      ≤ (applyMOps ((NewMetricsCollector "j").SetTaskTotal 2)
        [MOp.incSuccess]).taskTotal) ∧
    ((poolMetrics "j" [⟨"a", Outcome.ok⟩, ⟨"b", Outcome.err "x"⟩] 1
          true).taskSuccess +
        (poolMetrics "j" [⟨"a", Outcome.ok⟩, ⟨"b", Outcome.err "x"⟩] 1
          true).taskFailed
        = (poolMetrics "j" [⟨"a", Outcome.ok⟩, ⟨"b", Outcome.err "x"⟩] 1
          true).taskTotal ∧
      (poolMetrics "j" [⟨"a", Outcome.ok⟩, ⟨"b", Outcome.err "x"⟩] 1
          true).taskTotal = 2) :=
  metrics_invariant "j" 2 [MOp.incSuccess]
    [⟨"a", Outcome.ok⟩, ⟨"b", Outcome.err "x"⟩] 1 true
    (by norm_num [U32]) (by decide) (by decide) (by decide)

/-- C1: a panic inside one task's `Process` is recovered at the task
boundary: the failure counter is incremented once for that task, the
injected handler receives the recovered value, and the worker loop
continues with the remaining queue (first conjunct, for any queue and
state); consequently, for three queued tasks of which only the second
panics, all three are processed in order, `task_failed == 1` with the
two others successful, the handler is called exactly once with the
recovered value, and the run returns no error. -/
theorem worker_panic_isolation (jr : jobRunner) (job : Job) (w : Int)
    (t1 t2 t3 : Task) (v : String)
    (h1 : t1.outcome = Outcome.ok) (h2 : t2.outcome = Outcome.panicked v)
    (h3 : t3.outcome = Outcome.ok)
    (hb : jr.BeforeJob = none) (hh : jr.hasPanicHandler = true)
    (ht : job.tasks = Except.ok [t1, t2, t3]) (hw : 0 < w) :
    (∀ (t : Task) (rest : List Task) (s : PoolState) (u : String),
        t.outcome = Outcome.panicked u →
        workerLoop true (t :: rest) s =
          workerLoop true rest
            { metrics := s.metrics.IncTaskFailed
              processed := s.processed ++ [t.name]
              panicCalls := s.panicCalls ++ [u] }) ∧
    (jr.Run job w).processed = [t1.name, t2.name, t3.name] ∧
    (jr.Run job w).panicCalls = [v] ∧
    (jr.Run job w).finalMetrics = some ⟨job.use, 3, 2, 1⟩ ∧
    (jr.Run job w).result = none := by
  constructor
  · intro t rest s u hu
    simp [workerLoop, processTask, hu]
  · obtain ⟨n1, o1⟩ := t1
    obtain ⟨n2, o2⟩ := t2
    obtain ⟨n3, o3⟩ := t3
    simp only [Task.outcome] at h1 h2 h3
    subst h1; subst h2; subst h3
    simp only [jobRunner.Run, hb, ht, foldl_add_tasks, newTaskQueue]
    rw [workerPool.Run]
    simp only [hh, if_neg (by omega : ¬ w ≤ 0)]
    simp [workerLoop, processTask, MetricsCollector.IncTaskSuccess,
      MetricsCollector.IncTaskFailed, NewMetricsCollector,
      MetricsCollector.SetTaskTotal]
    norm_num [U32]

theorem worker_panic_isolation_witness :
    (∀ (t : Task) (rest : List Task) (s : PoolState) (u : String),
        t.outcome = Outcome.panicked u →
        workerLoop true (t :: rest) s =
          workerLoop true rest
            { metrics := s.metrics.IncTaskFailed
              processed := s.processed ++ [t.name]
              panicCalls := s.panicCalls ++ [u] }) ∧
    (jobRunner.Run ⟨none, false, true⟩
        ⟨"j", Except.ok [⟨"t1", Outcome.ok⟩, ⟨"t2", Outcome.panicked "pv"⟩,
          ⟨"t3", Outcome.ok⟩], 1⟩ 1).processed = ["t1", "t2", "t3"] ∧
    (jobRunner.Run ⟨none, false, true⟩
        ⟨"j", Except.ok [⟨"t1", Outcome.ok⟩, ⟨"t2", Outcome.panicked "pv"⟩,
          ⟨"t3", Outcome.ok⟩], 1⟩ 1).panicCalls = ["pv"] ∧
    (jobRunner.Run ⟨none, false, true⟩
        ⟨"j", Except.ok [⟨"t1", Outcome.ok⟩, ⟨"t2", Outcome.panicked "pv"⟩,
          ⟨"t3", Outcome.ok⟩], 1⟩ 1).finalMetrics = some ⟨"j", 3, 2, 1⟩ ∧
    (jobRunner.Run ⟨none, false, true⟩
        ⟨"j", Except.ok [⟨"t1", Outcome.ok⟩, ⟨"t2", Outcome.panicked "pv"⟩,
          ⟨"t3", Outcome.ok⟩], 1⟩ 1).result = none :=
  worker_panic_isolation ⟨none, false, true⟩
    ⟨"j", Except.ok [⟨"t1", Outcome.ok⟩, ⟨"t2", Outcome.panicked "pv"⟩,
      ⟨"t3", Outcome.ok⟩], 1⟩ 1
    ⟨"t1", Outcome.ok⟩ ⟨"t2", Outcome.panicked "pv"⟩ ⟨"t3", Outcome.ok⟩ "pv"
    rfl rfl rfl rfl rfl rfl (by decide)

/-- C10 (implicit): `workerPool.Run` performs no validation of the
`Workers` field — with `Workers ≤ 0` it spawns zero workers and returns
at once, leaving the queue untouched, processing nothing, incrementing
no counter, and consequently `TestRunner.Run` (which never calls
`validateJob`, unlike the CLI path) invoked with a non-positive worker
count on a job producing a non-empty task list returns nil even though
no task was ever executed. -/
theorem zero_workers_pool_noop (wp : workerPool) (job : Job) (ts : List Task)
    (w : Int) :
    (wp.Workers ≤ 0 →
      wp.Run = (⟨wp.MetricsCollector, [], []⟩, wp.Queue)) ∧
    (job.tasks = Except.ok ts → 0 < ts.length → ts.length < U32 → w ≤ 0 →
      (TestRunner.Run job w).result = none ∧
      (TestRunner.Run job w).processed = [] ∧
      (TestRunner.Run job w).finalMetrics =
        some ((NewMetricsCollector job.use).SetTaskTotal ts.length)) := by
  constructor
  · intro hw
    rw [workerPool.Run, if_pos hw]
  · intro ht hpos hlt hw
    have hne : ¬ ((0 : Nat) = ts.length % U32) := by
      rw [Nat.mod_eq_of_lt hlt]; omega
    refine ⟨?_, ?_, ?_⟩
    · rw [testRunner_run_ok job w ts ht]
      rw [if_neg ?_]
      rw [poolMetrics_total]
      have hfail : (poolMetrics job.use ts w false).taskFailed = 0 := by
        unfold poolMetrics workerPool.Run
        simp [hw, NewMetricsCollector, MetricsCollector.SetTaskTotal]
      rw [hfail]
      exact hne
    · simp [TestRunner.Run, ht, foldl_add_tasks, newTaskQueue,
        workerPool.Run, hw]
    · simp [TestRunner.Run, ht, foldl_add_tasks, newTaskQueue,
        workerPool.Run, hw]

theorem zero_workers_pool_noop_witness :
    workerPool.Run
        ⟨⟨[⟨"a", Outcome.ok⟩]⟩, 0, false, NewMetricsCollector "j"⟩ =
      (⟨NewMetricsCollector "j", [], []⟩, ⟨[⟨"a", Outcome.ok⟩]⟩) ∧
    (TestRunner.Run ⟨"j", Except.ok [⟨"a", Outcome.ok⟩], 0⟩ 0).result = none ∧
    (TestRunner.Run ⟨"j", Except.ok [⟨"a", Outcome.ok⟩], 0⟩ 0).processed = [] :=
  ⟨(zero_workers_pool_noop
      ⟨⟨[⟨"a", Outcome.ok⟩]⟩, 0, false, NewMetricsCollector "j"⟩
      ⟨"j", Except.ok [⟨"a", Outcome.ok⟩], 0⟩ [⟨"a", Outcome.ok⟩] 0).1
      (by decide),
    ((zero_workers_pool_noop
      ⟨⟨[⟨"a", Outcome.ok⟩]⟩, 0, false, NewMetricsCollector "j"⟩
      ⟨"j", Except.ok [⟨"a", Outcome.ok⟩], 0⟩ [⟨"a", Outcome.ok⟩] 0).2
      rfl (by decide) (by norm_num [U32]) (by decide)).1,
    ((zero_workers_pool_noop
      ⟨⟨[⟨"a", Outcome.ok⟩]⟩, 0, false, NewMetricsCollector "j"⟩
      ⟨"j", Except.ok [⟨"a", Outcome.ok⟩], 0⟩ [⟨"a", Outcome.ok⟩] 0).2
      rfl (by decide) (by norm_num [U32]) (by decide)).2.1⟩

end JobFW
